import Mathlib

/-!
Verification development for the polymarket-bot-deploy repository.

The Python sources (src/bot.py, src/risk_manager.py) are shallowly embedded:
pure functions become Lean functions over `ℚ`/`ℤ`/`String`, in-place mutation
of dataclasses becomes explicit state passing, and code that can raise a
Python exception returns `Except Unit`.  Python's `round(x, n)` (bankers
rounding, half to even) is modelled exactly on `ℚ`.
-/

namespace Polybot

/-- Rounding half to even on rationals, the behaviour of Python's `round`
applied to an exact decimal value. -/
def roundHalfEven (x : ℚ) : ℤ :=
  let n := ⌊x⌋
  let f := x - n
  if f < 1/2 then n
  else if 1/2 < f then n + 1
  else if n % 2 = 0 then n else n + 1

/-- Python's `round(x, k)` modelled on `ℚ`. -/
def pyRound (x : ℚ) (k : ℕ) : ℚ :=
  (roundHalfEven (x * 10 ^ k) : ℚ) / 10 ^ k

/-- Result dictionary of `RiskManager.calculate_bet` in src/bot.py
(lines 114-131): keys suggested_usd, percentage, edge. -/
structure BetResult where
  suggested_usd : ℚ
  percentage : ℚ
  edge : ℚ
deriving DecidableEq, Repr

/-- `RiskManager.calculate_bet` from src/bot.py lines 114-131.
`bankroll` and `fraction` are the constructor arguments `total_bankroll`
and `kelly_fraction`. -/
def calculate_bet (bankroll fraction market_price user_prob : ℚ) : BetResult :=
  let p := user_prob / 100
  let q := 1 - p
  if market_price ≤ 0 ∨ 1 ≤ market_price then
    { suggested_usd := 0, percentage := 0, edge := 0 }
  else
    let b := (1 - market_price) / market_price
    let raw_f := (b * p - q) / b
    let optimal_f := max 0 (raw_f * fraction)
    let safe_f := min optimal_f (1/10)
    let suggested_usd := bankroll * safe_f
    { suggested_usd := pyRound suggested_usd 2
      percentage := pyRound (safe_f * 100) 2
      edge := pyRound ((p - market_price) * 100) 2 }

/-- Result dictionary of `RiskManager.calculate_bet` in src/risk_manager.py:
either `{"amount": 0, "status": "Invalid Price"}` or the bet record. -/
inductive RMResult where
  | invalidPrice : RMResult
  | bet (suggested_usd percentage edge : ℚ) : RMResult
deriving DecidableEq, Repr

/-- The USD stake carried by an `RMResult` (the "amount" key is 0 in the
degenerate case). -/
def rm_stake : RMResult → ℚ
  | .invalidPrice => 0
  | .bet s _ _ => s

/-- `RiskManager.calculate_bet` from src/risk_manager.py lines 10-40. -/
def calculate_bet_rm (bankroll fraction market_price user_prob : ℚ) : RMResult :=
  let p := user_prob / 100
  let q := 1 - p
  if market_price ≤ 0 ∨ 1 ≤ market_price then .invalidPrice
  else
    let b := (1 - market_price) / market_price
    let raw_f := (b * p - q) / b
    let optimal_f := max 0 (raw_f * fraction)
    let safe_f := min optimal_f (1/10)
    let suggested_usd := bankroll * safe_f
    .bet (pyRound suggested_usd 2) (pyRound (safe_f * 100) 2)
      (pyRound ((p - market_price) * 100) 2)

/-- The Position Sizer algorithm exactly as the specification words it
(spec section 4.1): p, q, b, raw Kelly f, fractional Kelly
f1 = max(0,f)·kellyFraction, cap f2 = min(f1, 0.10).
Returns (f1, stake, edge). -/
def kelly_spec (bankroll fraction market_price user_prob : ℚ) : ℚ × ℚ × ℚ :=
  let p := user_prob / 100
  let q := 1 - p
  let b := (1 - market_price) / market_price
  let f := (b * p - q) / b
  let f1 := max 0 f * fraction
  let f2 := min f1 (1/10)
  (f1, bankroll * f2, (p - market_price) * 100)

/-- The `SmartWallet` dataclass of src/bot.py lines 138-152: one record per
leaderboard wallet, all aggregate fields defaulting to 0 and the tier
defaulting to "B" exactly as in the source. -/
structure SmartWallet where
  address : String
  username : String
  pnl_all : ℚ := 0
  vol_all : ℚ := 0
  pnl_month : ℚ := 0
  pnl_week : ℚ := 0
  pnl_day : ℚ := 0
  profitable_windows : ℕ := 0
  win_rate : ℚ := 0
  roi_percent : ℚ := 0
  closed_positions_count : ℕ := 0
  tier : String := "B"
  last_seen_trade_ts : ℤ := 0
deriving DecidableEq, Repr

/-- One leaderboard entry as read by `scan_leaderboard` (src/bot.py lines
389-396): proxyWallet, userName, pnl, vol, already converted to numbers. -/
structure LBEntry where
  proxyWallet : String
  userName : String
  pnl : ℚ
  vol : ℚ
deriving DecidableEq, Repr

/-- Creation of a fresh candidate record (src/bot.py lines 396-399):
`SmartWallet(address=wallet, username=username)` with
`username = entry.get("userName","") or wallet[:10]`. -/
def new_wallet (e : LBEntry) : SmartWallet :=
  { address := e.proxyWallet
    username := if e.userName = "" then e.proxyWallet.take 10 else e.userName }

/-- The per-period max-merge of one entry into a candidate record
(src/bot.py lines 401-410). -/
def apply_period (p : String) (e : LBEntry) (sw : SmartWallet) : SmartWallet :=
  if p = "ALL" then
    { sw with pnl_all := max sw.pnl_all e.pnl, vol_all := max sw.vol_all e.vol }
  else if p = "MONTH" then { sw with pnl_month := max sw.pnl_month e.pnl }
  else if p = "WEEK" then { sw with pnl_week := max sw.pnl_week e.pnl }
  else if p = "DAY" then { sw with pnl_day := max sw.pnl_day e.pnl }
  else sw

/-- Ingestion of one leaderboard entry into the candidates dictionary
(src/bot.py lines 389-410): empty addresses are skipped, a missing wallet
is created with all-zero aggregates, and the period figures are max-merged. -/
def leaderboard_ingest (p : String) (cand : String → Option SmartWallet)
    (e : LBEntry) : String → Option SmartWallet :=
  if e.proxyWallet = "" then cand
  else
    let sw := match cand e.proxyWallet with
      | some sw => sw
      | none => new_wallet e
    fun a => if a = e.proxyWallet then some (apply_period p e sw) else cand a

/-- Stage 1 ingestion of `scan_leaderboard` (src/bot.py lines 370-412): the
category × period loops flattened into one list of (timePeriod, entry)
items, folded into the candidates dictionary. -/
def merge_leaderboard (items : List (String × LBEntry)) :
    String → Option SmartWallet :=
  items.foldl (fun cand pe => leaderboard_ingest pe.1 cand pe.2) (fun _ => none)

/-- Numeric field read of a candidates dictionary: 0 for an absent wallet
(the starting value of every aggregate field in the source). -/
def getQ (g : SmartWallet → ℚ) (cand : String → Option SmartWallet)
    (w : String) : ℚ :=
  match cand w with
  | some sw => g sw
  | none => 0

/-- The merged all-time profits observed for wallet w in the ingested
items, as the specification describes the merge input. -/
def observed (P w : String) (items : List (String × LBEntry))
    (v : LBEntry → ℚ) : List ℚ :=
  (items.filter fun pe => decide (pe.1 = P ∧ pe.2.proxyWallet = w ∧ w ≠ "")).map
    (fun pe => v pe.2)

/-- The `Signal` dataclass of src/bot.py lines 155-170: one record per
qualifying trade observed. -/
structure Signal where
  wallet_address : String
  wallet_username : String
  wallet_tier : String
  market_question : String
  market_slug : String
  outcome : String
  side : String
  size_tokens : ℚ
  price : ℚ
  estimated_usd : ℚ
  market_probability : ℚ
  market_liquidity : ℚ
  timestamp : ℤ
  convergence_count : ℕ := 1
deriving DecidableEq, Repr

/-- The matching test of `SmartMoneyTracker.check_convergence`
(src/bot.py lines 591-597): same market slug, same outcome, a different
wallet address, timestamps less than the window apart. -/
def matches_sig (sig s : Signal) (window : ℤ) : Bool :=
  s.market_slug == sig.market_slug && s.outcome == sig.outcome
    && s.wallet_address != sig.wallet_address
    && decide (|s.timestamp - sig.timestamp| < window)

/-- The retained signal window right after pruning and appending the new
batch (src/bot.py lines 587-588): signals younger than the window plus the
new batch. -/
def retained_after (now window : ℤ) (recent new : List Signal) : List Signal :=
  recent.filter (fun s => decide (now - s.timestamp < window)) ++ new

/-- `SmartMoneyTracker.check_convergence` from src/bot.py lines 584-600,
with the mutable `self.recent_signals` passed explicitly: returns the new
retained window and the annotated new signals.  (In Python the annotated new
signals are the same objects stored in the retained window, so the returned
window carries the annotated counts; the counts of retained signals are
never read by the matching test, so annotating each new signal against the
un-annotated window is faithful.) -/
def check_convergence (now window : ℤ) (recent new : List Signal) :
    List Signal × List Signal :=
  let retained := retained_after now window recent new
  let annotate := fun (sig : Signal) =>
    { sig with convergence_count :=
        1 + ((retained.filter (fun s => matches_sig sig s window)).map
              (fun s => s.wallet_address)).dedup.length }
  (recent.filter (fun s => decide (now - s.timestamp < window)) ++ new.map annotate,
    new.map annotate)

/-- The specification's convergence rule: the number of DISTINCT other
wallet addresses among the retained signals that match the new signal,
expressed as the cardinality of the finite set of those addresses. -/
def spec_distinct_others (retained : List Signal) (sig : Signal) (window : ℤ) : ℕ :=
  ((retained.filter (fun s => matches_sig sig s window)).map
    (fun s => s.wallet_address)).toFinset.card

/-- The specification's annotation of one new signal: convergence count =
1 + the distinct-other-address count against the retained window. -/
def spec_annotate (retained : List Signal) (window : ℤ) (sig : Signal) : Signal :=
  { sig with convergence_count := 1 + spec_distinct_others retained sig window }

/-- First example signal for the convergence scenario: wallet w1 buys
outcome Yes of market mkt at timestamp 1000. -/
def sig_w1 : Signal :=
  { wallet_address := "w1", wallet_username := "u1", wallet_tier := "A"
    market_question := "q", market_slug := "mkt", outcome := "Yes"
    side := "BUY", size_tokens := 1000, price := 1/2, estimated_usd := 500
    market_probability := 1/2, market_liquidity := 10000, timestamp := 1000 }

/-- Second example signal: a distinct wallet w2, same market and outcome,
10 seconds later. -/
def sig_w2 : Signal :=
  { sig_w1 with wallet_address := "w2", wallet_username := "u2", timestamp := 1010 }

/-- Third example signal: a third wallet w3, same market and outcome,
5 more seconds later. -/
def sig_w3 : Signal :=
  { sig_w1 with wallet_address := "w3", wallet_username := "u3", timestamp := 1015 }

/-- A raw upstream field value before Python numeric conversion:
`missing` stands for an absent/falsy field (the `x.get(key, 0) or 0`
idiom, converting to the default), `val` for a value that converts
cleanly, and `malformed` for a value on which `float()`/`int()` raises. -/
inductive Raw (α : Type) where
  | missing : Raw α
  | val : α → Raw α
  | malformed : Raw α
deriving DecidableEq, Repr

/-- Python's `float(x.get(key, d) or d)` / `int(... or d)`: the default for
a missing field, the value itself when well formed, and an exception
(modelled as `Except.error`) when malformed. -/
def Raw.parse {α : Type} (r : Raw α) (d : α) : Except Unit α :=
  match r with
  | .missing => .ok d
  | .val a => .ok a
  | .malformed => .error ()

/-- One closed-position record as read by `validate_track_records`
(src/bot.py lines 453-457): realizedPnl, totalBought, avgPrice, each a raw
field whose conversion can raise. -/
structure ClosedPos where
  realizedPnl : Raw ℚ
  totalBought : Raw ℚ
  avgPrice : Raw ℚ
deriving DecidableEq, Repr

/-- The running aggregate (wins, total, total_pnl, total_initial) of the
closed-position loop in src/bot.py lines 452-465. -/
structure PosStats where
  wins : ℕ
  total : ℕ
  total_pnl : ℚ
  total_initial : ℚ
deriving DecidableEq, Repr

/-- SMART_MONEY["min_closed_positions"] (src/bot.py line 88). -/
def min_closed_positions : ℕ := 8

/-- SMART_MONEY["min_win_rate"] (src/bot.py line 89). -/
def min_win_rate : ℚ := 54/100

/-- SMART_MONEY["min_roi_percent"] (src/bot.py line 90). -/
def min_roi_percent : ℚ := 8

/-- The closed-position loop of src/bot.py lines 452-465: reconstruct each
initial stake as totalBought × avgPrice, skip stakes of magnitude below 1,
and accumulate wins, count, realized pnl and initial stake; a malformed
field raises. -/
def pos_stats : List ClosedPos → PosStats → Except Unit PosStats
  | [], acc => .ok acc
  | pos :: rest, acc =>
    match pos.realizedPnl.parse 0 with
    | .error e => .error e
    | .ok realized_pnl =>
      match pos.totalBought.parse 0 with
      | .error e => .error e
      | .ok total_bought =>
        match pos.avgPrice.parse 0 with
        | .error e => .error e
        | .ok avg_price =>
          let initial := total_bought * avg_price
          if |initial| < 1 then pos_stats rest acc
          else
            pos_stats rest
              { wins := if 0 < realized_pnl then acc.wins + 1 else acc.wins
                total := acc.total + 1
                total_pnl := acc.total_pnl + realized_pnl
                total_initial := acc.total_initial + |initial| }

/-- The tier assignment of src/bot.py lines 478-483, applied to a wallet
that already cleared the minimum win-rate/ROI admission bar. -/
def assign_tier (wr roi : ℚ) : String :=
  if 65/100 ≤ wr ∧ 50 ≤ roi then "A"
  else if 58/100 ≤ wr ∧ 25 ≤ roi then "B"
  else "C"

/-- The per-wallet body of `validate_track_records` (src/bot.py lines
443-485): `.ok none` when the wallet is rejected, `.ok (some sw)` when it
validates (with win rate, ROI, sample count and tier filled in), and
`.error` when a conversion exception propagates.  A failed or empty
closed-positions fetch is the empty list. -/
def validate_wallet (sw : SmartWallet) (closed : List ClosedPos) :
    Except Unit (Option SmartWallet) :=
  if closed.length < min_closed_positions then .ok none
  else
    match pos_stats closed { wins := 0, total := 0, total_pnl := 0, total_initial := 0 } with
    | .error e => .error e
    | .ok st =>
      if st.total < min_closed_positions then .ok none
      else
        let wr := if 0 < st.total then (st.wins : ℚ) / (st.total : ℚ) else 0
        let roi := if 0 < st.total_initial then st.total_pnl / st.total_initial * 100 else 0
        if min_win_rate ≤ wr ∧ min_roi_percent ≤ roi then
          .ok (some { sw with
            win_rate := pyRound wr 3
            roi_percent := pyRound roi 1
            closed_positions_count := st.total
            tier := assign_tier wr roi })
        else .ok none

/-- `SmartMoneyTracker.validate_track_records` (src/bot.py lines 438-488)
over an explicit candidate list, with the closed-positions fetch for each
address supplied by `closedOf`.  An exception in one wallet's processing
propagates out of the whole loop, exactly as in the Python `for` loop. -/
def validate_track_records (closedOf : String → List ClosedPos) :
    List (String × SmartWallet) → Except Unit (List (String × SmartWallet))
  | [] => .ok []
  | (addr, sw) :: rest =>
    match validate_wallet sw (closedOf addr) with
    | .error e => .error e
    | .ok none => validate_track_records closedOf rest
    | .ok (some sw') =>
      match validate_track_records closedOf rest with
      | .error e => .error e
      | .ok vrest => .ok ((addr, sw') :: vrest)

/-- Dictionary lookup in the tracked-wallet map. -/
def lookup_wallet (a : String) (l : List (String × SmartWallet)) :
    Option SmartWallet :=
  (l.find? (fun p => p.1 == a)).map (fun p => p.2)

/-- `SmartMoneyTracker.refresh_wallets` (src/bot.py lines 666-683) with the
Stage 1-3 scan result passed as `candidates` and the previous tracked map
as `tracked`: zero candidates, zero validated survivors, or a propagated
exception all leave the tracked map unchanged; otherwise the validated map
replaces it after carrying each re-qualifying wallet's monitoring cursor
forward. -/
def refresh_wallets (closedOf : String → List ClosedPos)
    (candidates tracked : List (String × SmartWallet)) :
    List (String × SmartWallet) :=
  if candidates.isEmpty then tracked
  else
    match validate_track_records closedOf candidates with
    | .error _ => tracked
    | .ok validated =>
      if validated.isEmpty then tracked
      else
        validated.map (fun p =>
          match lookup_wallet p.1 tracked with
          | some old => (p.1, { p.2 with last_seen_trade_ts := old.last_seen_trade_ts })
          | none => p)

/-- Eight clean winning closed positions, enough to clear every Stage 4
threshold. -/
def eight_wins : List ClosedPos :=
  List.replicate 8
    { realizedPnl := .val 10, totalBought := .val 10, avgPrice := .val 1 }

/-- A candidate wallet for the refresh witness. -/
def cand_wallet : SmartWallet := { address := "a", username := "ua" }

/-- A previously tracked generation of the same wallet, cursor 42. -/
def old_wallet : SmartWallet :=
  { address := "a", username := "ua", last_seen_trade_ts := 42 }

/-- A normalized market-details record as produced by `get_market_details`
(src/bot.py lines 225-244); `outcome_prices` is `none` when the serialized
price vector fails to parse as JSON. -/
structure Market where
  question : String
  slug : String
  outcome_prices : Option (List ℚ)
  volume : ℚ
  liquidity : ℚ
  active : Bool
  closed : Bool
deriving DecidableEq, Repr

/-- One activity record as read by `check_new_trades` (src/bot.py lines
508-521); the numeric fields are raw values whose conversion can raise. -/
structure Trade where
  timestamp : Raw ℤ
  size : Raw ℚ
  price : Raw ℚ
  conditionId : String
  outcome : String
  title : String
  slug : String
  outcomeIndex : Raw ℕ
deriving DecidableEq, Repr

/-- SMART_MONEY["min_trade_size_usd"] (src/bot.py line 93). -/
def min_trade_size_usd : ℚ := 200

/-- SMART_MONEY["min_market_liquidity"] (src/bot.py line 94). -/
def min_market_liquidity : ℚ := 8000

/-- SMART_MONEY["max_probability"] (src/bot.py line 95). -/
def max_probability : ℚ := 92/100

/-- SMART_MONEY["min_probability"] (src/bot.py line 96). -/
def min_probability : ℚ := 5/100

/-- SMART_MONEY["longshot_min_trade_usd"] (src/bot.py line 97). -/
def longshot_min_trade_usd : ℚ := 1000

/-- The placeholder market dict built when a trade has no conditionId
(src/bot.py lines 531-536). -/
def empty_condition_market (title slug : String) : Market :=
  { question := if title = "" then "Unknown" else title
    slug := slug
    outcome_prices := some []
    volume := 0
    liquidity := 0
    active := true
    closed := false }

/-- The probability derivation of src/bot.py lines 546-552: the traded
outcome's entry of the outcome-price vector, falling back to the trade's
own price when the vector fails to parse, is empty, the index is out of
range, or the index itself fails to convert (every such exception is
caught and falls back to the price). -/
def prob_of (m : Market) (price : ℚ) (idxRaw : Raw ℕ) : ℚ :=
  match m.outcome_prices with
  | none => price
  | some prices =>
    match idxRaw with
    | .malformed => price
    | .missing => if prices.isEmpty then price else prices.getD 0 price
    | .val idx => if prices.isEmpty then price else prices.getD idx price

/-- The per-trade body of `check_new_trades` (src/bot.py lines 508-573):
`.ok none` for a filtered trade, `.ok (some signal)` for a surviving one,
`.error` when a numeric conversion or the market fetch raises.  `details`
stands for `get_market_details`. -/
def process_trade (details : String → Except Unit Market) (sw : SmartWallet)
    (t : Trade) : Except Unit (Option Signal) :=
  match t.timestamp.parse 0 with
  | .error e => .error e
  | .ok ts =>
    if ts ≤ sw.last_seen_trade_ts then .ok none
    else
      match t.size.parse 0 with
      | .error e => .error e
      | .ok size =>
        match t.price.parse 0 with
        | .error e => .error e
        | .ok price =>
          if price ≤ 0 then .ok none
          else
            let est_usd := size * price
            if est_usd < min_trade_size_usd then .ok none
            else
              match (if t.conditionId ≠ "" then details t.conditionId
                     else .ok (empty_condition_market t.title t.slug)) with
              | .error e => .error e
              | .ok market =>
                if market.closed || !market.active then .ok none
                else if market.liquidity < min_market_liquidity then .ok none
                else
                  let prob := prob_of market price t.outcomeIndex
                  if max_probability < prob then .ok none
                  else if prob < min_probability ∧ est_usd < longshot_min_trade_usd then
                    .ok none
                  else
                    .ok (some
                      { wallet_address := sw.address
                        wallet_username := sw.username
                        wallet_tier := sw.tier
                        market_question := market.question
                        market_slug := market.slug
                        outcome := t.outcome
                        side := "BUY"
                        size_tokens := size
                        price := price
                        estimated_usd := est_usd
                        market_probability := prob
                        market_liquidity := market.liquidity
                        timestamp := ts })

/-- The trade loop of one wallet (src/bot.py lines 508-573): signals are
accumulated in order and an exception aborts the loop. -/
def process_trades (details : String → Except Unit Market) (sw : SmartWallet) :
    List Trade → Except Unit (List Signal)
  | [] => .ok []
  | t :: rest =>
    match process_trade details sw t with
    | .error e => .error e
    | .ok s? =>
      match process_trades details sw rest with
      | .error e => .error e
      | .ok sigs => .ok (s?.toList ++ sigs)

/-- `max(int(t.get("timestamp", 0) or 0) for t in trades)` (src/bot.py
line 577): Python's max raises on an empty sequence and re-raises any
conversion error. -/
def batch_max_ts : List Trade → Except Unit ℤ
  | [] => .error ()
  | [t] => t.timestamp.parse 0
  | t :: t2 :: rest =>
    match t.timestamp.parse 0 with
    | .error e => .error e
    | .ok v =>
      match batch_max_ts (t2 :: rest) with
      | .error e => .error e
      | .ok m => .ok (max v m)

/-- One wallet's pass of `check_new_trades` (src/bot.py lines 497-578):
an empty (or failed, hence empty) fetch skips the wallet entirely;
otherwise the trades are filtered and the monitoring cursor is advanced to
the maximum of its previous value and the maximum timestamp of the whole
fetched batch. -/
def process_wallet (details : String → Except Unit Market) (sw : SmartWallet)
    (trades : List Trade) : Except Unit (List Signal × SmartWallet) :=
  match trades with
  | [] => .ok ([], sw)
  | _ =>
    match process_trades details sw trades with
    | .error e => .error e
    | .ok sigs =>
      match batch_max_ts trades with
      | .error e => .error e
      | .ok m => .ok (sigs, { sw with last_seen_trade_ts := max sw.last_seen_trade_ts m })

/-- `SmartMoneyTracker.check_new_trades` (src/bot.py lines 492-580) over
an explicit list of (tracked wallet, fetched batch) pairs: the collected
signal list (or the propagated exception, which discards every collected
signal) together with the wallet states after the run — wallets processed
before a failure keep their in-place cursor updates, the failing and all
later wallets are left unchanged. -/
def check_new_trades (details : String → Except Unit Market) :
    List (SmartWallet × List Trade) → Except Unit (List Signal) × List SmartWallet
  | [] => (.ok [], [])
  | (sw, trades) :: rest =>
    match process_wallet details sw trades with
    | .error e => (.error e, sw :: rest.map (fun p => p.1))
    | .ok (sigs, sw') =>
      let r := check_new_trades details rest
      (match r.1 with
       | .ok s => .ok (sigs ++ s)
       | .error e => .error e,
       sw' :: r.2)

/-- Market details used by the concrete trade-monitor scenarios: a live
market with ample liquidity and a 50/50 outcome-price vector. -/
def market_live : Market :=
  { question := "q", slug := "mkt", outcome_prices := some [1/2, 1/2]
    volume := 0, liquidity := 10000, active := true, closed := false }

/-- The market-details oracle for the concrete scenarios. -/
def details0 : String → Except Unit Market := fun _ => .ok market_live

/-- A tracked wallet with monitoring cursor T = 1000. -/
def wallet_T : SmartWallet :=
  { address := "a", username := "ua", last_seen_trade_ts := 1000 }

/-- A trade at T+50 that is too small to pass the notional floor. -/
def trade_small : Trade :=
  { timestamp := .val 1050, size := .val 1, price := .val (1/2)
    conditionId := "m1", outcome := "Yes", title := "t", slug := "mkt"
    outcomeIndex := .val 0 }

/-- A trade at T+10 that passes every filter. -/
def trade_big : Trade :=
  { timestamp := .val 1010, size := .val 1000, price := .val (1/2)
    conditionId := "m1", outcome := "Yes", title := "t", slug := "mkt"
    outcomeIndex := .val 0 }

/-- A stale trade at timestamp 990, below the cursor. -/
def trade_old1 : Trade :=
  { timestamp := .val 990, size := .val 1000, price := .val (1/2)
    conditionId := "m1", outcome := "Yes", title := "t", slug := "mkt"
    outcomeIndex := .val 0 }

/-- A stale trade exactly at the cursor timestamp 1000. -/
def trade_old2 : Trade :=
  { timestamp := .val 1000, size := .val 1000, price := .val (1/2)
    conditionId := "m1", outcome := "Yes", title := "t", slug := "mkt"
    outcomeIndex := .val 0 }

/-- A first tracked wallet whose only fetched trade is malformed. -/
def wallet_b1 : SmartWallet := { address := "b1", username := "u1" }

/-- A second tracked wallet with a clean qualifying trade. -/
def wallet_b2 : SmartWallet := { address := "b2", username := "u2" }

/-- A trade whose size field raises on conversion (timestamp above the
cursor, so the conversion is reached). -/
def bad_trade : Trade :=
  { timestamp := .val 2000, size := .malformed, price := .val 1
    conditionId := "m1", outcome := "Yes", title := "t", slug := "mkt"
    outcomeIndex := .val 0 }

/-- Eight closed positions whose first record has a malformed realizedPnl,
so Stage 4 raises on the sample. -/
def bad_positions : List ClosedPos :=
  { realizedPnl := .malformed, totalBought := .val 10, avgPrice := .val 1 }
    :: List.replicate 7
      { realizedPnl := .val 10, totalBought := .val 10, avgPrice := .val 1 }

/-- The query parameters of the closed-positions fetch in
`validate_track_records` (src/bot.py lines 443-446). -/
structure ClosedPosQuery where
  user : String
  limit : ℕ
  sortBy : String
  sortDirection : String
deriving DecidableEq, Repr

/-- The literal query the source builds: limit 50, sorted by REALIZEDPNL
descending (src/bot.py lines 443-446). -/
def closed_positions_query (addr : String) : ClosedPosQuery :=
  { user := addr, limit := 50, sortBy := "REALIZEDPNL", sortDirection := "DESC" }

/-- Modelled from the spec: one record of the external closed-positions
endpoint (spec section 6: "given {wallet address, limit, sort}, returns a
sequence of {realized profit, quantity bought, average entry price}"),
extended with the position's close time so that selection by recency is
expressible. -/
structure ClosedPosRecord where
  realizedPnl : ℚ
  totalBought : ℚ
  avgPrice : ℚ
  closedAt : ℚ
deriving DecidableEq, Repr

/-- Descending insertion by a key. -/
def insert_desc (key : ClosedPosRecord → ℚ) (r : ClosedPosRecord) :
    List ClosedPosRecord → List ClosedPosRecord
  | [] => [r]
  | x :: xs => if key x < key r then r :: x :: xs else x :: insert_desc key r xs

/-- Descending insertion sort by a key. -/
def sort_desc (key : ClosedPosRecord → ℚ) (l : List ClosedPosRecord) :
    List ClosedPosRecord :=
  l.foldr (insert_desc key) []

/-- Modelled from the spec: the external closed-positions endpoint (spec
section 6) applied to a wallet's full history — it orders the records
descending by the requested sort key (REALIZEDPNL orders by realized
profit; any other key stands for the close-time ordering) and returns the
first `limit` of them. -/
def endpoint_closed_positions (q : ClosedPosQuery)
    (history : List ClosedPosRecord) : List ClosedPosRecord :=
  let key := if q.sortBy = "REALIZEDPNL" then fun r => r.realizedPnl
             else fun r => r.closedAt
  (sort_desc key history).take q.limit

/-- The sample claim C8 describes: the `n` most recent closed positions. -/
def most_recent_sample (n : ℕ) (history : List ClosedPosRecord) :
    List ClosedPosRecord :=
  (sort_desc (fun r => r.closedAt) history).take n

/-- A 51-position history in which the most recent position (closedAt 50)
has the smallest realized profit. -/
def history51 : List ClosedPosRecord :=
  (List.range 51).map (fun i =>
    { realizedPnl := ((50 - (i : ℤ) : ℤ) : ℚ), totalBought := 1, avgPrice := 1
      closedAt := ((i : ℤ) : ℚ) })

/-- Claim C3: for every market price in (0,1), probability percent, bankroll
greater than 0 and Kelly fraction in (0,1], `calculate_bet` computes
p = prob/100, q = 1-p, b = (1-price)/price, raw f = (b·p − q)/b, applies
fractional Kelly f1 = max(0,f)·fraction, caps at 0.10, and returns
stake = bankroll·f2 and edge = (p − price)·100 (both rounded to cents as the
code does); market price 0.40, probability 60, fraction 0.25, bankroll 1000
yields stake 83.33 and edge 20.00, and any input whose fractional Kelly
exceeds 0.10 is clamped to exactly 0.10 of the bankroll. -/
theorem calculate_bet_follows_kelly_spec
    (bankroll fraction market_price user_prob : ℚ)
    (h0 : 0 < market_price) (h1 : market_price < 1)
    (hf0 : 0 < fraction) (hf1 : fraction ≤ 1) (hb : 0 < bankroll) :
    ((calculate_bet bankroll fraction market_price user_prob).suggested_usd
        = pyRound (kelly_spec bankroll fraction market_price user_prob).2.1 2
      ∧ (calculate_bet bankroll fraction market_price user_prob).edge
        = pyRound (kelly_spec bankroll fraction market_price user_prob).2.2 2)
    ∧ (1/10 < (kelly_spec bankroll fraction market_price user_prob).1 →
        (calculate_bet bankroll fraction market_price user_prob).percentage = 10
        ∧ (calculate_bet bankroll fraction market_price user_prob).suggested_usd
          = pyRound (bankroll * (1/10)) 2)
    ∧ calculate_bet 1000 (1/4) (2/5) 60
        = { suggested_usd := 8333/100, percentage := 833/100, edge := 20 } := by
  have hcond : ¬ (market_price ≤ 0 ∨ 1 ≤ market_price) := by
    push_neg
    exact ⟨h0, h1⟩
  have hmax : ∀ r : ℚ, max 0 r * fraction = max 0 (r * fraction) := by
    intro r
    rw [max_mul_of_nonneg _ _ (le_of_lt hf0), zero_mul]
  constructor
  · constructor
    · simp only [calculate_bet, kelly_spec, if_neg hcond, hmax]
    · simp only [calculate_bet, kelly_spec, if_neg hcond]
  constructor
  · intro hclamp
    simp only [kelly_spec, hmax] at hclamp
    have hmin :
        min (max 0 (((1 - market_price) / market_price * (user_prob / 100)
          - (1 - user_prob / 100)) / ((1 - market_price) / market_price)
            * fraction)) (1/10) = 1/10 :=
      min_eq_right (le_of_lt hclamp)
    constructor
    · simp only [calculate_bet, if_neg hcond, hmin]
      norm_num [pyRound, roundHalfEven]
    · simp only [calculate_bet, if_neg hcond, hmin]
  · norm_num [calculate_bet, pyRound, roundHalfEven]

/-- Witness for C3: the spec's own worked example, market price 0.40,
estimated probability 60, Kelly fraction 0.25, bankroll 1000. -/
theorem calculate_bet_follows_kelly_spec_witness :
    (calculate_bet 1000 (1/4) (2/5) 60).suggested_usd
        = pyRound (kelly_spec 1000 (1/4) (2/5) 60).2.1 2
      ∧ (calculate_bet 1000 (1/4) (2/5) 60).edge
        = pyRound (kelly_spec 1000 (1/4) (2/5) 60).2.2 2 :=
  (calculate_bet_follows_kelly_spec 1000 (1/4) (2/5) 60 (by norm_num)
    (by norm_num) (by norm_num) (by norm_num) (by norm_num)).1

theorem getQ_leaderboard_ingest
    (g : SmartWallet → ℚ) (v : LBEntry → ℚ) (P : String)
    (hupd : ∀ (p : String) (e : LBEntry) (sw : SmartWallet),
      g (apply_period p e sw) = if p = P then max (g sw) (v e) else g sw)
    (hnew : ∀ e : LBEntry, g (new_wallet e) = 0)
    (p : String) (cand : String → Option SmartWallet) (e : LBEntry) (w : String) :
    getQ g (leaderboard_ingest p cand e) w
      = if p = P ∧ e.proxyWallet = w ∧ w ≠ "" then max (getQ g cand w) (v e)
        else getQ g cand w := by
  by_cases h0 : e.proxyWallet = ""
  · rw [if_neg (by rintro ⟨_, h1, h2⟩; exact h2 (h1.symm.trans h0))]
    simp only [leaderboard_ingest, if_pos h0]
  · by_cases h1 : w = e.proxyWallet
    · subst h1
      rcases hc : cand e.proxyWallet with _ | sw <;>
        by_cases h2 : p = P <;>
          simp [leaderboard_ingest, getQ, h0, hc, hupd, hnew, h2]
    · rw [if_neg (by rintro ⟨_, h2, _⟩; exact h1 h2.symm)]
      simp [leaderboard_ingest, getQ, h0, h1]

theorem getQ_merge_fold
    (g : SmartWallet → ℚ) (v : LBEntry → ℚ) (P : String)
    (hupd : ∀ (p : String) (e : LBEntry) (sw : SmartWallet),
      g (apply_period p e sw) = if p = P then max (g sw) (v e) else g sw)
    (hnew : ∀ e : LBEntry, g (new_wallet e) = 0) :
    ∀ (items : List (String × LBEntry)) (cand : String → Option SmartWallet)
      (w : String),
      getQ g (items.foldl (fun c pe => leaderboard_ingest pe.1 c pe.2) cand) w
        = ((items.filter fun pe =>
              decide (pe.1 = P ∧ pe.2.proxyWallet = w ∧ w ≠ "")).map
                (fun pe => v pe.2)).foldl max (getQ g cand w)
  | [], cand, w => rfl
  | pe :: rest, cand, w => by
    rw [List.foldl_cons,
      getQ_merge_fold g v P hupd hnew rest (leaderboard_ingest pe.1 cand pe.2) w,
      getQ_leaderboard_ingest g v P hupd hnew pe.1 cand pe.2 w]
    by_cases hm : pe.1 = P ∧ pe.2.proxyWallet = w ∧ w ≠ ""
    · simp only [List.filter_cons, decide_eq_true_eq, if_pos hm, List.map_cons,
        List.foldl_cons]
    · simp only [List.filter_cons, decide_eq_true_eq, if_neg hm]

theorem getQ_merge_leaderboard
    (g : SmartWallet → ℚ) (v : LBEntry → ℚ) (P : String)
    (hupd : ∀ (p : String) (e : LBEntry) (sw : SmartWallet),
      g (apply_period p e sw) = if p = P then max (g sw) (v e) else g sw)
    (hnew : ∀ e : LBEntry, g (new_wallet e) = 0)
    (items : List (String × LBEntry)) (w : String) :
    getQ g (merge_leaderboard items) w
      = ((items.filter fun pe =>
            decide (pe.1 = P ∧ pe.2.proxyWallet = w ∧ w ≠ "")).map
              (fun pe => v pe.2)).foldl max 0 := by
  unfold merge_leaderboard
  rw [getQ_merge_fold g v P hupd hnew items (fun _ => none) w]
  rfl

theorem apply_period_pnl_all (p : String) (e : LBEntry) (sw : SmartWallet) :
    (apply_period p e sw).pnl_all
      = if p = "ALL" then max sw.pnl_all e.pnl else sw.pnl_all := by
  simp only [apply_period]
  split_ifs with h1 h2 h3 h4 <;> simp_all

theorem apply_period_vol_all (p : String) (e : LBEntry) (sw : SmartWallet) :
    (apply_period p e sw).vol_all
      = if p = "ALL" then max sw.vol_all e.vol else sw.vol_all := by
  simp only [apply_period]
  split_ifs with h1 h2 h3 h4 <;> simp_all

theorem apply_period_pnl_month (p : String) (e : LBEntry) (sw : SmartWallet) :
    (apply_period p e sw).pnl_month
      = if p = "MONTH" then max sw.pnl_month e.pnl else sw.pnl_month := by
  simp only [apply_period]
  split_ifs with h1 h2 h3 h4 <;> simp_all

theorem apply_period_pnl_week (p : String) (e : LBEntry) (sw : SmartWallet) :
    (apply_period p e sw).pnl_week
      = if p = "WEEK" then max sw.pnl_week e.pnl else sw.pnl_week := by
  simp only [apply_period]
  split_ifs with h1 h2 h3 h4 <;> simp_all

theorem apply_period_pnl_day (p : String) (e : LBEntry) (sw : SmartWallet) :
    (apply_period p e sw).pnl_day
      = if p = "DAY" then max sw.pnl_day e.pnl else sw.pnl_day := by
  simp only [apply_period]
  split_ifs with h1 h2 h3 h4 <;> simp_all

/-- Counterexample to claim C5 as stated: with two all-time leaderboard
entries for wallet w carrying profits -100 and -50 (their maximum is -50),
the merged all-time profit is 0, not the maximum observed profit, because
every aggregate field starts at 0 and is only ever max-merged upward. -/
theorem merge_leaderboard_not_max_observed :
    (merge_leaderboard
        [("ALL", { proxyWallet := "w", userName := "u", pnl := -100, vol := 0 }),
         ("ALL", { proxyWallet := "w", userName := "u", pnl := -50, vol := 0 })]
      "w").map (fun sw => sw.pnl_all) ≠ some (-50)
    ∧ (merge_leaderboard
        [("ALL", { proxyWallet := "w", userName := "u", pnl := -100, vol := 0 }),
         ("ALL", { proxyWallet := "w", userName := "u", pnl := -50, vol := 0 })]
      "w").map (fun sw => sw.pnl_all) = some 0 := by
  have h : (merge_leaderboard
        [("ALL", { proxyWallet := "w", userName := "u", pnl := -100, vol := 0 }),
         ("ALL", { proxyWallet := "w", userName := "u", pnl := -50, vol := 0 })]
      "w").map (fun sw => sw.pnl_all) = some 0 := by
    simp +decide only [merge_leaderboard, leaderboard_ingest, new_wallet,
      apply_period, List.foldl_cons, List.foldl_nil, Option.map]
  refine ⟨?_, h⟩
  rw [h]
  intro hx
  exact absurd (Option.some.inj hx) (by norm_num)

/-- Claim C5, amended: in Stage 1 of `scan_leaderboard`, entries for the
same wallet address are merged per time period by folding max over the
observed profits starting from the 0 the field is initialized to (so the
result is the maximum of 0 and all observed figures — the maximum observed
figure whenever any figure is nonnegative, and never the sum); for the
all-time period the volume is merged the same way; a wallet listed in two
categories' all-time leaderboards with profits 100 and 150 merges to
all-time profit 150. -/
theorem merge_leaderboard_per_period_max :
    (∀ (items : List (String × LBEntry)) (w : String),
      getQ (fun sw => sw.pnl_all) (merge_leaderboard items) w
        = (observed "ALL" w items (fun e => e.pnl)).foldl max 0
      ∧ getQ (fun sw => sw.vol_all) (merge_leaderboard items) w
        = (observed "ALL" w items (fun e => e.vol)).foldl max 0
      ∧ getQ (fun sw => sw.pnl_month) (merge_leaderboard items) w
        = (observed "MONTH" w items (fun e => e.pnl)).foldl max 0
      ∧ getQ (fun sw => sw.pnl_week) (merge_leaderboard items) w
        = (observed "WEEK" w items (fun e => e.pnl)).foldl max 0
      ∧ getQ (fun sw => sw.pnl_day) (merge_leaderboard items) w
        = (observed "DAY" w items (fun e => e.pnl)).foldl max 0)
    ∧ (merge_leaderboard
        [("ALL", { proxyWallet := "w", userName := "u", pnl := 100, vol := 0 }),
         ("ALL", { proxyWallet := "w", userName := "u", pnl := 150, vol := 0 })]
      "w").map (fun sw => sw.pnl_all) = some 150 := by
  constructor
  · intro items w
    refine ⟨?_, ?_, ?_, ?_, ?_⟩
    · exact getQ_merge_leaderboard _ _ "ALL"
        (fun p e sw => apply_period_pnl_all p e sw) (fun e => rfl) items w
    · exact getQ_merge_leaderboard _ _ "ALL"
        (fun p e sw => apply_period_vol_all p e sw) (fun e => rfl) items w
    · exact getQ_merge_leaderboard _ _ "MONTH"
        (fun p e sw => apply_period_pnl_month p e sw) (fun e => rfl) items w
    · exact getQ_merge_leaderboard _ _ "WEEK"
        (fun p e sw => apply_period_pnl_week p e sw) (fun e => rfl) items w
    · exact getQ_merge_leaderboard _ _ "DAY"
        (fun p e sw => apply_period_pnl_day p e sw) (fun e => rfl) items w
  · simp +decide only [merge_leaderboard, leaderboard_ingest, new_wallet,
      apply_period, List.foldl_cons, List.foldl_nil, Option.map]

/-- Claim C1: for every batch of new signals passed to
`check_convergence`, each new signal's convergence count is set to 1 plus
the number of distinct other wallet addresses among the retained signals
(after pruning signals older than the window and appending the new batch)
that share the same market slug and outcome label and whose timestamp
differs by less than the window; two matching signals from two distinct
wallets 10 seconds apart with a 3600-second window yield convergence count
2 for the second-evaluated signal, and a third matching signal from a third
wallet yields count 3. -/
theorem check_convergence_counts_distinct_other_wallets :
    (∀ (now window : ℤ) (recent new : List Signal),
      (check_convergence now window recent new).2
        = new.map (spec_annotate (retained_after now window recent new) window))
    ∧ ((check_convergence 1100 3600 [] [sig_w1, sig_w2]).2.map
          (fun s => s.convergence_count)) = [2, 2]
    ∧ ((check_convergence 1100 3600
          (check_convergence 1100 3600 [] [sig_w1, sig_w2]).1 [sig_w3]).2.map
            (fun s => s.convergence_count)) = [3] := by
  refine ⟨?_, by decide, by decide⟩
  intro now window recent new
  simp only [check_convergence, retained_after]
  refine List.map_congr_left (fun sig _ => ?_)
  simp only [spec_annotate, spec_distinct_others, retained_after,
    List.card_toFinset]

/-- Claim C4: for every market price at most 0 or at least 1, and all other
inputs, both variants of `calculate_bet` return the zero-stake result (a
total function value, never an exception): the bot.py variant returns the
all-zero record and the risk_manager.py variant returns the
"Invalid Price" record whose amount is 0. -/
theorem calculate_bet_degenerate_price
    (bankroll fraction market_price user_prob : ℚ)
    (h : market_price ≤ 0 ∨ 1 ≤ market_price) :
    calculate_bet bankroll fraction market_price user_prob
        = { suggested_usd := 0, percentage := 0, edge := 0 }
    ∧ calculate_bet_rm bankroll fraction market_price user_prob = .invalidPrice
    ∧ rm_stake (calculate_bet_rm bankroll fraction market_price user_prob) = 0 := by
  refine ⟨?_, ?_, ?_⟩
  · simp only [calculate_bet, if_pos h]
  · simp only [calculate_bet_rm, if_pos h]
  · simp only [calculate_bet_rm, if_pos h, rm_stake]

/-- Witness for C4: market price 1 (and by the same theorem any price
outside (0,1)) yields the zero-stake result in both variants. -/
theorem calculate_bet_degenerate_price_witness :
    calculate_bet 1000 (1/4) 1 60
        = { suggested_usd := 0, percentage := 0, edge := 0 }
    ∧ calculate_bet_rm 1000 (1/4) 1 60 = .invalidPrice
    ∧ rm_stake (calculate_bet_rm 1000 (1/4) 1 60) = 0 :=
  calculate_bet_degenerate_price 1000 (1/4) 1 60 (Or.inr le_rfl)

/-- Claim C7: for every wallet that clears the admission bar (win rate at
least 0.54 and ROI at least 8), the tier is assigned deterministically and
in priority order — "A" exactly when win rate ≥ 0.65 and ROI ≥ 50, "B"
exactly when that fails but win rate ≥ 0.58 and ROI ≥ 25, else "C"; win
rate 0.70 with ROI 60 gives "A", 0.60 with 30 gives "B", 0.55 with 10
gives "C". -/
theorem assign_tier_priority_order (wr roi : ℚ)
    (hwr : min_win_rate ≤ wr) (hroi : min_roi_percent ≤ roi) :
    ((assign_tier wr roi = "A" ↔ (65/100 ≤ wr ∧ 50 ≤ roi))
      ∧ (assign_tier wr roi = "B"
          ↔ (¬(65/100 ≤ wr ∧ 50 ≤ roi) ∧ (58/100 ≤ wr ∧ 25 ≤ roi)))
      ∧ (assign_tier wr roi = "C"
          ↔ (¬(65/100 ≤ wr ∧ 50 ≤ roi) ∧ ¬(58/100 ≤ wr ∧ 25 ≤ roi))))
    ∧ assign_tier (70/100) 60 = "A"
    ∧ assign_tier (60/100) 30 = "B"
    ∧ assign_tier (55/100) 10 = "C" := by
  refine ⟨?_, by norm_num [assign_tier], by norm_num [assign_tier],
    by norm_num [assign_tier]⟩
  refine ⟨?_, ?_, ?_⟩ <;>
    by_cases h1 : (65/100 ≤ wr ∧ 50 ≤ roi) <;>
      by_cases h2 : (58/100 ≤ wr ∧ 25 ≤ roi) <;>
        simp +decide [assign_tier, h1, h2]

/-- Witness for C7: win rate 0.70 and ROI 60 clear the admission bar and
the theorem instantiates there, giving tier "A". -/
theorem assign_tier_priority_order_witness :
    assign_tier (70/100) 60 = "A" ↔ (65/100 ≤ (70/100 : ℚ) ∧ 50 ≤ (60 : ℚ)) :=
  (assign_tier_priority_order (70/100) 60 (by norm_num [min_win_rate])
    (by norm_num [min_roi_percent])).1.1

/-- Claim C6: for every qualification cycle, if Stages 1-3 yield zero
candidates or Stage 4 yields zero validated survivors (or Stage 4 raises),
the previously tracked wallet set is left completely unchanged, and only
when at least one wallet validates is the tracked set replaced (with each
re-qualifying wallet's cursor carried forward). -/
theorem refresh_wallets_keeps_tracked_on_failure
    (closedOf : String → List ClosedPos)
    (candidates tracked : List (String × SmartWallet)) :
    (candidates = [] → refresh_wallets closedOf candidates tracked = tracked)
    ∧ (validate_track_records closedOf candidates = .ok []
        → refresh_wallets closedOf candidates tracked = tracked)
    ∧ (validate_track_records closedOf candidates = .error ()
        → refresh_wallets closedOf candidates tracked = tracked)
    ∧ (∀ v, validate_track_records closedOf candidates = .ok v → v ≠ []
        → refresh_wallets closedOf candidates tracked
            = v.map (fun p =>
                match lookup_wallet p.1 tracked with
                | some old =>
                    (p.1, { p.2 with last_seen_trade_ts := old.last_seen_trade_ts })
                | none => p)) := by
  refine ⟨?_, ?_, ?_, ?_⟩
  · intro h
    subst h
    rfl
  · intro h
    by_cases hc : candidates.isEmpty <;> simp [refresh_wallets, hc, h]
  · intro h
    by_cases hc : candidates.isEmpty <;> simp [refresh_wallets, hc, h]
  · intro v h hne
    rcases List.exists_cons_of_ne_nil hne with ⟨x, xs, hv⟩
    subst hv
    have hc : candidates.isEmpty = false := by
      cases candidates with
      | nil => cases h
      | cons c cs => rfl
    simp [refresh_wallets, hc, h]

/-- Witness for C6: a single candidate that validates with win rate 1 and
ROI 100 replaces the tracked set, carrying the old cursor 42 forward; and
with an empty candidate set the tracked set is untouched. -/
theorem refresh_wallets_keeps_tracked_on_failure_witness :
    refresh_wallets (fun _ => eight_wins) [("a", cand_wallet)] [("a", old_wallet)]
        = [("a", { cand_wallet with
            win_rate := 1, roi_percent := 100,
            closed_positions_count := 8, tier := "A",
            last_seen_trade_ts := 42 })]
    ∧ refresh_wallets (fun _ => eight_wins) [] [("a", old_wallet)]
        = [("a", old_wallet)] := by
  constructor
  · have hval : validate_track_records (fun _ => eight_wins) [("a", cand_wallet)]
        = .ok [("a", { cand_wallet with
            win_rate := 1, roi_percent := 100,
            closed_positions_count := 8, tier := "A" })] := by
      simp +decide [validate_track_records, validate_wallet, pos_stats,
        eight_wins, assign_tier, pyRound, roundHalfEven, min_closed_positions,
        min_win_rate, min_roi_percent, List.replicate, Raw.parse, cand_wallet]
      norm_num [Int.fract]
    have h := (refresh_wallets_keeps_tracked_on_failure (fun _ => eight_wins)
      [("a", cand_wallet)] [("a", old_wallet)]).2.2.2 _ hval (by simp)
    rw [h]
    simp +decide [lookup_wallet, cand_wallet, old_wallet]
  · exact (refresh_wallets_keeps_tracked_on_failure (fun _ => eight_wins)
      [] [("a", old_wallet)]).1 rfl

theorem process_wallet_cursor (details : String → Except Unit Market)
    (sw : SmartWallet) (trades : List Trade) (sigs : List Signal)
    (sw' : SmartWallet) (h : process_wallet details sw trades = .ok (sigs, sw')) :
    sw.last_seen_trade_ts ≤ sw'.last_seen_trade_ts
    ∧ ∀ m, batch_max_ts trades = .ok m
        → sw'.last_seen_trade_ts = max sw.last_seen_trade_ts m := by
  cases trades with
  | nil =>
    simp only [process_wallet, Except.ok.injEq, Prod.mk.injEq] at h
    refine ⟨le_of_eq (by rw [h.2]), fun m hm => ?_⟩
    exact Except.noConfusion hm
  | cons t rest =>
    cases hz : process_trades details sw (t :: rest) with
    | error e =>
      simp only [process_wallet, hz] at h
      exact Except.noConfusion h
    | ok sigs0 =>
      cases hm0 : batch_max_ts (t :: rest) with
      | error e =>
        simp only [process_wallet, hz, hm0] at h
        exact Except.noConfusion h
      | ok m0 =>
        simp only [process_wallet, hz, hm0, Except.ok.injEq, Prod.mk.injEq] at h
        refine ⟨?_, fun m hm => ?_⟩
        · rw [← h.2]
          exact le_max_left _ _
        · injection hm with hmm
          subst hmm
          rw [← h.2]

theorem check_new_trades_mono (details : String → Except Unit Market)
    (wallets : List (SmartWallet × List Trade)) :
    List.Forall₂ (fun w w' => w.last_seen_trade_ts ≤ w'.last_seen_trade_ts)
      (wallets.map (fun p => p.1)) (check_new_trades details wallets).2 := by
  induction wallets with
  | nil => simp [check_new_trades]
  | cons p rest ih =>
    obtain ⟨sw, trades⟩ := p
    cases hp : process_wallet details sw trades with
    | error e =>
      simp only [check_new_trades, hp, List.map_cons]
      exact List.Forall₂.cons le_rfl
        ((List.forall₂_same).mpr (fun x _ => le_rfl))
    | ok pr =>
      obtain ⟨sigs, sw'⟩ := pr
      simp only [check_new_trades, hp, List.map_cons]
      exact List.Forall₂.cons (process_wallet_cursor details sw trades sigs sw' hp).1 ih

/-- Claim C2: for every tracked wallet and every run of the trade monitor,
the monitoring cursor never decreases; after a wallet's fetched batch is
processed the cursor equals the maximum of its previous value and the
maximum timestamp in the fetched batch, including filtered trades; with
cursor T = 1000 and a batch whose maximum timestamp is T+50 = 1050 but
whose only signal-producing trade is at T+10, exactly one signal is
emitted and the cursor advances to 1050. -/
theorem trade_monitor_cursor_monotone :
    (∀ (details : String → Except Unit Market)
        (wallets : List (SmartWallet × List Trade)),
      List.Forall₂ (fun w w' => w.last_seen_trade_ts ≤ w'.last_seen_trade_ts)
        (wallets.map (fun p => p.1)) (check_new_trades details wallets).2)
    ∧ (∀ (details : String → Except Unit Market) (sw : SmartWallet)
        (trades : List Trade) (sigs : List Signal) (sw' : SmartWallet) (m : ℤ),
        process_wallet details sw trades = .ok (sigs, sw')
        → batch_max_ts trades = .ok m
        → sw'.last_seen_trade_ts = max sw.last_seen_trade_ts m)
    ∧ (process_wallet details0 wallet_T [trade_small, trade_big]).map
        (fun pr => (pr.1.length, pr.2.last_seen_trade_ts)) = .ok (1, 1050) := by
  refine ⟨check_new_trades_mono, ?_, ?_⟩
  · intro details sw trades sigs sw' m h hm
    exact (process_wallet_cursor details sw trades sigs sw' h).2 m hm
  · simp +decide [process_wallet, process_trades, process_trade, batch_max_ts,
      prob_of, details0, market_live, wallet_T, trade_small, trade_big,
      Raw.parse, min_trade_size_usd, min_market_liquidity, max_probability,
      min_probability, longshot_min_trade_usd, empty_condition_market]
    norm_num [Except.map]

/-- Witness for C2: the cursor-equals-max clause instantiated on the
concrete batch with maximum timestamp 1050. -/
theorem trade_monitor_cursor_monotone_witness :
    ({ wallet_T with last_seen_trade_ts := 1050 } : SmartWallet).last_seen_trade_ts
      = max wallet_T.last_seen_trade_ts 1050 := by
  refine trade_monitor_cursor_monotone.2.1 details0 wallet_T
    [trade_small, trade_big]
    [{ wallet_address := "a", wallet_username := "ua", wallet_tier := "B"
       market_question := "q", market_slug := "mkt", outcome := "Yes"
       side := "BUY", size_tokens := 1000, price := 1/2, estimated_usd := 500
       market_probability := 1/2, market_liquidity := 10000, timestamp := 1010 }]
    ({ wallet_T with last_seen_trade_ts := 1050 }) 1050 ?_ ?_
  · simp +decide [process_wallet, process_trades, process_trade, batch_max_ts,
      prob_of, details0, market_live, wallet_T, trade_small, trade_big,
      Raw.parse, min_trade_size_usd, min_market_liquidity, max_probability,
      min_probability, longshot_min_trade_usd, empty_condition_market]
    norm_num [Except.map]
  · simp +decide [batch_max_ts, trade_small, trade_big, Raw.parse]

/-- Claim C9: re-running the trade monitor for a wallet whose fetched
activity contains no trade with timestamp strictly greater than its
monitoring cursor produces zero signals and leaves the wallet state (and
its cursor) unchanged, both for the single wallet pass and for a run over
that wallet alone. -/
theorem trade_monitor_idempotent (details : String → Except Unit Market)
    (sw : SmartWallet) (trades : List Trade)
    (h : ∀ t ∈ trades, ∃ v, t.timestamp.parse 0 = .ok v
          ∧ v ≤ sw.last_seen_trade_ts) :
    process_wallet details sw trades = .ok ([], sw)
    ∧ check_new_trades details [(sw, trades)] = (.ok [], [sw]) := by
  have hpt : process_trades details sw trades = .ok [] := by
    induction trades with
    | nil => rfl
    | cons t rest ih =>
      obtain ⟨v, hv, hle⟩ := h t (List.mem_cons_self t rest)
      have hhd : process_trade details sw t = .ok none := by
        simp only [process_trade, hv, if_pos hle]
      have htl : process_trades details sw rest = .ok [] :=
        ih (fun t' ht' => h t' (List.mem_cons_of_mem t ht'))
      simp only [process_trades, hhd, htl, Option.toList, List.nil_append]
  have hpw : process_wallet details sw trades = .ok ([], sw) := by
    cases trades with
    | nil => rfl
    | cons t rest =>
      have hbm : ∀ (t0 : Trade) (r : List Trade),
          (∀ t' ∈ t0 :: r, ∃ v, t'.timestamp.parse 0 = .ok v
            ∧ v ≤ sw.last_seen_trade_ts)
          → ∃ m, batch_max_ts (t0 :: r) = .ok m ∧ m ≤ sw.last_seen_trade_ts := by
        intro t0 r
        induction r generalizing t0 with
        | nil =>
          intro hh
          obtain ⟨v, hv, hle⟩ := hh t0 (List.mem_cons_self t0 [])
          exact ⟨v, by simp only [batch_max_ts, hv], hle⟩
        | cons t1 r1 ih1 =>
          intro hh
          obtain ⟨v, hv, hle⟩ := hh t0 (List.mem_cons_self t0 (t1 :: r1))
          obtain ⟨m, hm, hmle⟩ := ih1 t1
            (fun t' ht' => hh t' (List.mem_cons_of_mem t0 ht'))
          refine ⟨max v m, ?_, max_le hle hmle⟩
          simp only [batch_max_ts, hv, hm]
      obtain ⟨m, hm, hmle⟩ := hbm t rest h
      simp only [process_wallet, hpt, hm, max_eq_left hmle]
  refine ⟨hpw, ?_⟩
  simp [check_new_trades, hpw]

/-- Witness for C9: a batch holding only trades at timestamps 990 and 1000
against cursor 1000 produces no signal and leaves the wallet unchanged. -/
theorem trade_monitor_idempotent_witness :
    process_wallet details0 wallet_T [trade_old1, trade_old2] = .ok ([], wallet_T)
    ∧ check_new_trades details0 [(wallet_T, [trade_old1, trade_old2])]
        = (.ok [], [wallet_T]) := by
  refine trade_monitor_idempotent details0 wallet_T [trade_old1, trade_old2] ?_
  intro t ht
  simp only [List.mem_cons, List.not_mem_nil, or_false] at ht
  rcases ht with rfl | rfl
  · exact ⟨990, rfl, by norm_num [wallet_T]⟩
  · exact ⟨1000, rfl, by norm_num [wallet_T]⟩

theorem drop_len_cons {α : Type} (l1 : List α) (x : α) (l2 : List α) :
    (l1 ++ x :: l2).drop (l1.length + 1) = l2 := by
  induction l1 with
  | nil => simp
  | cons y ys ih => simpa using ih

theorem drop_map_len_cons {α β : Type} (f : α → β) (l1 : List α) (x : α)
    (l2 : List α) :
    (List.map f (l1 ++ x :: l2)).drop (l1.length + 1) = List.map f l2 := by
  rw [List.map_append, List.map_cons]
  have h := drop_len_cons (l1.map f) (f x) (l2.map f)
  rwa [List.length_map] at h

/-- Counterexample to claim C10 as stated: with two tracked wallets, the
first carrying a malformed trade and the second a clean qualifying trade,
the whole run returns the exception with zero signals and the second
wallet entirely untouched — although the second wallet's batch alone would
have produced one signal and advanced its cursor to 1010.  Per-item
failures are NOT isolated. -/
theorem check_new_trades_abort_counterexample :
    check_new_trades details0 [(wallet_b1, [bad_trade]), (wallet_b2, [trade_big])]
        = (.error (), [wallet_b1, wallet_b2])
    ∧ (process_wallet details0 wallet_b2 [trade_big]).map
        (fun pr => (pr.1.length, pr.2.last_seen_trade_ts)) = .ok (1, 1010) := by
  constructor
  · simp +decide [check_new_trades, process_wallet, process_trades,
      process_trade, batch_max_ts, Raw.parse, wallet_b1, wallet_b2, bad_trade,
      trade_big, details0, market_live, prob_of, min_trade_size_usd,
      min_market_liquidity, max_probability, min_probability,
      longshot_min_trade_usd, empty_condition_market]
  · simp +decide [process_wallet, process_trades, process_trade, batch_max_ts,
      prob_of, details0, market_live, wallet_b2, trade_big, Raw.parse,
      min_trade_size_usd, min_market_liquidity, max_probability,
      min_probability, longshot_min_trade_usd, empty_condition_market]
    norm_num [Except.map]

/-- Claim C10, amended: an exception raised while processing a single
wallet's items is NOT isolated — in `check_new_trades` it aborts the whole
batch (the run returns the exception, every collected signal is discarded,
and the wallets from the failure point on are left unchanged, while wallets
processed before it keep their cursor updates), and in
`validate_track_records` it aborts the whole validation pass; failures are
isolated only per network call inside `api_get` (errors become empty
results) and at the cycle boundary in the main loop. -/
theorem per_item_failure_aborts_batch :
    (∀ (details : String → Except Unit Market)
        (ws1 : List (SmartWallet × List Trade)) (w : SmartWallet)
        (trades : List Trade) (ws2 : List (SmartWallet × List Trade)),
      process_wallet details w trades = .error ()
      → (check_new_trades details (ws1 ++ (w, trades) :: ws2)).1 = .error ()
        ∧ (check_new_trades details (ws1 ++ (w, trades) :: ws2)).2.drop
            (ws1.length + 1) = ws2.map (fun p => p.1)
        ∧ (check_new_trades details (ws1 ++ (w, trades) :: ws2)).2.length
            = ws1.length + 1 + ws2.length)
    ∧ (∀ (closedOf : String → List ClosedPos) (cs1 : List (String × SmartWallet))
        (a : String) (sw : SmartWallet) (cs2 : List (String × SmartWallet)),
      validate_wallet sw (closedOf a) = .error ()
      → validate_track_records closedOf (cs1 ++ (a, sw) :: cs2) = .error ()) := by
  constructor
  · intro details ws1 w trades ws2 h
    induction ws1 with
    | nil =>
      simp only [List.nil_append, check_new_trades, h]
      refine ⟨by simp, by simp, ?_⟩
      simp only [List.length_cons, List.length_map, List.length_nil]
      omega
    | cons p rest ih =>
      obtain ⟨sw0, tr0⟩ := p
      cases hp : process_wallet details sw0 tr0 with
      | error e =>
        cases e
        simp only [List.cons_append, List.append_eq, check_new_trades, hp]
        refine ⟨by simp, ?_, ?_⟩
        · simp only [List.length_cons, List.drop_succ_cons]
          exact drop_map_len_cons (fun p => p.1) rest (w, trades) ws2
        · simp only [List.length_cons, List.length_map, List.length_append]
          omega
      | ok pr =>
        obtain ⟨sigs, sw'⟩ := pr
        obtain ⟨ih1, ih2, ih3⟩ := ih
        simp only [List.cons_append, List.append_eq, check_new_trades, hp]
        refine ⟨?_, ?_, ?_⟩
        · rw [ih1]
        · simp only [List.length_cons, List.drop_succ_cons]
          exact ih2
        · simp only [List.length_cons]
          omega
  · intro closedOf cs1 a sw cs2 h
    induction cs1 with
    | nil => simp only [List.nil_append, validate_track_records, h]
    | cons p rest ih =>
      obtain ⟨a0, sw0⟩ := p
      cases hv : validate_wallet sw0 (closedOf a0) with
      | error e =>
        cases e
        simp only [List.cons_append, List.append_eq, validate_track_records, hv]
      | ok o =>
        cases o with
        | none =>
          simp only [List.cons_append, List.append_eq, validate_track_records,
            hv, ih]
        | some sw0' =>
          simp only [List.cons_append, List.append_eq, validate_track_records,
            hv, ih]

/-- Witness for the amended C10: the trade-monitor conclusion at the
concrete two-wallet batch with a malformed first wallet, and the
validation-loop conclusion at a single candidate with a malformed closed
position. -/
theorem per_item_failure_aborts_batch_witness :
    ((check_new_trades details0
        [(wallet_b1, [bad_trade]), (wallet_b2, [trade_big])]).1 = .error ()
      ∧ (check_new_trades details0
          [(wallet_b1, [bad_trade]), (wallet_b2, [trade_big])]).2.drop 1
            = [wallet_b2])
    ∧ validate_track_records (fun _ => bad_positions) [("a", cand_wallet)]
        = .error () := by
  constructor
  · have h := per_item_failure_aborts_batch.1 details0 [] wallet_b1 [bad_trade]
      [(wallet_b2, [trade_big])]
      (by simp +decide [process_wallet, process_trades, process_trade,
        Raw.parse, wallet_b1, bad_trade, details0, market_live,
        min_trade_size_usd])
    exact ⟨h.1, h.2.1⟩
  · exact per_item_failure_aborts_batch.2 (fun _ => bad_positions) [] "a"
      cand_wallet []
      (by simp +decide [validate_wallet, pos_stats, bad_positions,
        List.replicate, Raw.parse, min_closed_positions])

theorem insert_desc_perm (key : ClosedPosRecord → ℚ) (r : ClosedPosRecord)
    (l : List ClosedPosRecord) : (insert_desc key r l).Perm (r :: l) := by
  induction l with
  | nil => exact List.Perm.refl _
  | cons x xs ih =>
    simp only [insert_desc]
    by_cases h : key x < key r
    · rw [if_pos h]
    · rw [if_neg h]
      exact ((ih.cons x).trans (List.Perm.swap r x xs))

theorem sort_desc_perm (key : ClosedPosRecord → ℚ) (l : List ClosedPosRecord) :
    (sort_desc key l).Perm l := by
  induction l with
  | nil => exact List.Perm.refl _
  | cons x xs ih =>
    exact (insert_desc_perm key x (sort_desc key xs)).trans (ih.cons x)

theorem insert_desc_pairwise (key : ClosedPosRecord → ℚ) (r : ClosedPosRecord)
    (l : List ClosedPosRecord)
    (h : l.Pairwise (fun a b => key b ≤ key a)) :
    (insert_desc key r l).Pairwise (fun a b => key b ≤ key a) := by
  induction l with
  | nil => simp [insert_desc]
  | cons x xs ih =>
    rw [List.pairwise_cons] at h
    simp only [insert_desc]
    by_cases hx : key x < key r
    · rw [if_pos hx, List.pairwise_cons]
      refine ⟨?_, List.pairwise_cons.mpr h⟩
      intro b hb
      rcases List.mem_cons.mp hb with rfl | hb'
      · exact le_of_lt hx
      · exact le_trans (h.1 b hb') (le_of_lt hx)
    · rw [if_neg hx, List.pairwise_cons]
      refine ⟨?_, ih h.2⟩
      intro b hb
      rcases List.mem_cons.mp ((insert_desc_perm key r xs).mem_iff.mp hb) with
        rfl | hb'
      · exact not_lt.mp hx
      · exact h.1 b hb'

theorem sort_desc_pairwise (key : ClosedPosRecord → ℚ)
    (l : List ClosedPosRecord) :
    (sort_desc key l).Pairwise (fun a b => key b ≤ key a) := by
  induction l with
  | nil => simp [sort_desc]
  | cons x xs ih => exact insert_desc_pairwise key x (sort_desc key xs) ih

/-- Counterexample to claim C8 as stated: on the 51-position history the
sample the source's query selects (sortBy REALIZEDPNL, DESC, limit 50)
omits the most recent position (closedAt 50) entirely, while the 50 most
recent positions include it — the sample is selected by realized profit,
not by recency. -/
theorem closed_positions_sample_not_recent :
    ((endpoint_closed_positions (closed_positions_query "0xw") history51).map
        (fun r => r.closedAt)).contains 50 = false
    ∧ ((most_recent_sample 50 history51).map
        (fun r => r.closedAt)).contains 50 = true
    ∧ endpoint_closed_positions (closed_positions_query "0xw") history51
        ≠ most_recent_sample 50 history51 := by
  have h1 : ((endpoint_closed_positions (closed_positions_query "0xw")
      history51).map (fun r => r.closedAt)).contains 50 = false := by
    simp +decide [endpoint_closed_positions, closed_positions_query,
      history51, sort_desc, insert_desc, List.range, List.range.loop]
  have h2 : ((most_recent_sample 50 history51).map
      (fun r => r.closedAt)).contains 50 = true := by
    simp +decide [most_recent_sample, history51, sort_desc, insert_desc,
      List.range, List.range.loop]
  refine ⟨h1, h2, fun h => ?_⟩
  rw [h] at h1
  exact Bool.noConfusion (h1.symm.trans h2)

/-- Claim C8, amended: the bounded Stage 4 sample is the wallet's closed
positions with the HIGHEST REALIZED PROFIT — the source's query asks for
sortBy REALIZEDPNL descending with limit 50, so (under the spec-modelled
endpoint) the fetched sample is the first 50 of the history sorted
descending by realized profit: a permutation-preserving reordering of the
history, sorted so that every kept record's profit is at least every
later record's, truncated to 50 — not the most recent positions. -/
theorem closed_positions_sample_top_pnl (addr : String)
    (history : List ClosedPosRecord) :
    endpoint_closed_positions (closed_positions_query addr) history
        = (sort_desc (fun r => r.realizedPnl) history).take 50
    ∧ (sort_desc (fun r => r.realizedPnl) history).Perm history
    ∧ (sort_desc (fun r => r.realizedPnl) history).Pairwise
        (fun a b => b.realizedPnl ≤ a.realizedPnl) := by
  refine ⟨?_, sort_desc_perm _ history, sort_desc_pairwise _ history⟩
  simp +decide [endpoint_closed_positions, closed_positions_query]

end Polybot
